import Mathlib

/-!
Verification of the replication admin authorization gate of kitedb
(src/ray-rs/python/kitedb/replication_auth.py), as a shallow embedding.

Modelling conventions:
- Python `str` is Lean `String`; `str.strip()` is `pyStrip` (ASCII whitespace,
  including vertical tab and form feed); `str.lower()` is ASCII lowering with
  `Char.toLower`, which matches CPython on the ASCII range used here.
- A header mapping is an association list with string keys and string values;
  `dict.get` is first-exact-key lookup, `dict.items()` is in-order traversal.
- `re.Pattern.search(v)`, coerced with `bool(...)`, is a `String → Bool` field
  of `RePattern`; `re.compile` is an explicit `compile : String → RePattern`
  parameter, since the regex engine is an external collaborator.
- `raise ValueError` becomes `Except String`; the wrapper distinguishes
  `ValueError` from `PermissionError` through the `AuthError` sum.
- ASGI scope values (`Any` in Python) are the `ScopeVal` inductive covering the
  dynamic types the code dispatches on (bool, int, str, list, mapping, None);
  Python floats are not modelled.
-/

namespace KiteDB

/-- Python ASCII whitespace as removed by `str.strip()`. -/
def isPySpace (c : Char) : Bool :=
  c == ' ' || c == '\t' || c == '\n' || c == '\r' || c == '\x0b' || c == '\x0c'

/-- Strip leading and trailing whitespace from a character list. -/
def pyStripL (l : List Char) : List Char :=
  ((l.dropWhile isPySpace).reverse.dropWhile isPySpace).reverse

/-- Python `str.strip()`. -/
def pyStrip (s : String) : String := String.mk (pyStripL s.data)

/-- Python `str.lower()` on the ASCII range. -/
def pyLower (s : String) : String := String.mk (s.data.map Char.toLower)

/-- Model of a compiled `re.Pattern`: `search` is `bool(pattern.search v)`. -/
structure RePattern where
  search : String → Bool

/-- Model of `Union[str, Pattern[str]]`, the type of `mtls_subject_regex`. -/
inductive RegexArg where
  | str (s : String)
  | pat (p : RePattern)

/-- Header mapping: association list of names to values (a Python `Mapping`
has unique keys; lookup is first exact match). -/
abbrev Headers := List (String × String)

/-- Dynamic values stored in an ASGI scope mapping. -/
inductive ScopeVal where
  | null
  | bool (b : Bool)
  | int (n : Int)
  | str (s : String)
  | list (l : List ScopeVal)
  | map (m : List (String × ScopeVal))

/-- Python truthiness (`if value:`) for the dynamic values modelled. -/
def ScopeVal.truthy : ScopeVal → Bool
  | .null => false
  | .bool b => b
  | .int n => n != 0
  | .str s => s != ""
  | .list l => !l.isEmpty
  | .map m => !m.isEmpty

/-- A request as seen by the gate: `getattr(request, "headers", None)` and
`getattr(request, "scope", None)`.  A missing attribute is `Option.none`;
a scope attribute that is not a `Mapping` is any non-`map` `ScopeVal`. -/
structure Request where
  headers : Option Headers := Option.none
  scope : Option ScopeVal := Option.none

/-- Embedding of the `ReplicationAdminAuthConfig` dataclass; `mode` is the
raw string (the `Literal` annotation is not enforced by Python). -/
structure ReplicationAdminAuthConfig where
  mode : String := "none"
  token : Option String := Option.none
  mtls_header : String := "x-forwarded-client-cert"
  mtls_subject_regex : Option RegexArg := Option.none
  mtls_matcher : Option (Request → Bool) := Option.none

/-- Embedding of the `AsgiMtlsMatcherOptions` dataclass. -/
structure AsgiMtlsMatcherOptions where
  require_peer_certificate : Bool := false

/-- The `_VALID_REPLICATION_ADMIN_AUTH_MODES` set. -/
def _VALID_REPLICATION_ADMIN_AUTH_MODES : List String :=
  ["none", "token", "mtls", "token_or_mtls", "token_and_mtls"]

/-- The token-requiring mode set `{"token", "token_or_mtls", "token_and_mtls"}`
tested inside `_normalize_config`. -/
def _TOKEN_REQUIRED_MODES : List String := ["token", "token_or_mtls", "token_and_mtls"]

/-- Embedding of `_normalize_regex`: `None` passes through, a compiled pattern
passes through (the `isinstance(value, re.Pattern)` branch), and a string is
compiled. -/
def _normalize_regex (compile : String → RePattern) :
    Option RegexArg → Option RegexArg
  | Option.none => Option.none
  | some (.pat p) => some (.pat p)
  | some (.str s) => some (.pat (compile s))

/-- The `(config.mode or "none").strip().lower()` line of `_normalize_config`. -/
def _norm_mode (config : ReplicationAdminAuthConfig) : String :=
  pyLower (pyStrip (if config.mode = "" then "none" else config.mode))

/-- The `(config.token or "").strip() or None` line of `_normalize_config`. -/
def _norm_token (config : ReplicationAdminAuthConfig) : Option String :=
  if pyStrip (config.token.getD "") = "" then Option.none
  else some (pyStrip (config.token.getD ""))

/-- The `(config.mtls_header or "").strip().lower() or "x-forwarded-client-cert"`
line of `_normalize_config` (`mtls_header` is typed `str`, so the first `or`
is the identity on it). -/
def _norm_mtls_header (config : ReplicationAdminAuthConfig) : String :=
  if pyLower (pyStrip config.mtls_header) = "" then "x-forwarded-client-cert"
  else pyLower (pyStrip config.mtls_header)

/-- The normalized dataclass rebuilt at the end of `_normalize_config`. -/
def _normalized_record (compile : String → RePattern)
    (config : ReplicationAdminAuthConfig) : ReplicationAdminAuthConfig :=
  { mode := _norm_mode config, token := _norm_token config,
    mtls_header := _norm_mtls_header config,
    mtls_subject_regex := _normalize_regex compile config.mtls_subject_regex,
    mtls_matcher := config.mtls_matcher }

/-- Embedding of `_normalize_config`: validates the mode and the token and
returns the normalized dataclass, or raises `ValueError` (`Except.error`). -/
def _normalize_config (compile : String → RePattern)
    (config : ReplicationAdminAuthConfig) :
    Except String ReplicationAdminAuthConfig :=
  if _norm_mode config ∉ _VALID_REPLICATION_ADMIN_AUTH_MODES then
    .error ("Invalid replication admin auth mode " ++ _norm_mode config ++
      "; expected none|token|mtls|token_or_mtls|token_and_mtls")
  else if _norm_mode config ∈ _TOKEN_REQUIRED_MODES ∧ _norm_token config = Option.none then
    .error ("replication admin auth mode " ++ _norm_mode config ++
      " requires a non-empty token")
  else
    .ok (_normalized_record compile config)

/-- Python `dict.get` on a header mapping: first exact-key match. -/
def dict_get (hs : Headers) (name : String) : Option String :=
  match hs with
  | [] => Option.none
  | (k, v) :: rest => if k = name then some v else dict_get rest name

/-- The `for key, value in headers.items()` loop of `_get_header_value`:
first entry whose lowercased key equals `name` (unchanged!) and whose value
is non-empty after stripping. -/
def _header_scan (hs : Headers) (name : String) : Option String :=
  match hs with
  | [] => Option.none
  | (key, value) :: rest =>
    if pyLower key ≠ name then _header_scan rest name
    else if pyStrip value ≠ "" then some (pyStrip value)
    else _header_scan rest name

/-- Embedding of `_get_header_value`: `headers.get(name)` then
`headers.get(name.lower())`, returning the stripped value when non-empty,
otherwise falling through to the `items()` scan.  `headers is None` is
`Option.none`. -/
def _get_header_value (headers : Option Headers) (name : String) : Option String :=
  match headers with
  | Option.none => Option.none
  | some hs =>
    match (match dict_get hs name with
           | some v => some v
           | Option.none => dict_get hs (pyLower name)) with
    | some v =>
      if pyStrip v ≠ "" then some (pyStrip v) else _header_scan hs name
    | Option.none => _header_scan hs name

/-- Embedding of `_as_bool`: bools as themselves, numbers by comparison with
zero, strings through the normalized truthy-literal set, everything else
false. -/
def _as_bool (value : ScopeVal) : Bool :=
  match value with
  | .bool b => b
  | .int n => n != 0
  | .str s =>
    pyLower (pyStrip s) == "1" || pyLower (pyStrip s) == "true" ||
      pyLower (pyStrip s) == "yes" || pyLower (pyStrip s) == "success"
  | _ => false

/-- Python `scope.get(key)` on a scope mapping; a missing key is Python
`None`, i.e. `ScopeVal.null`. -/
def scope_get (m : List (String × ScopeVal)) (key : String) : ScopeVal :=
  match m with
  | [] => .null
  | (k, v) :: rest => if k = key then v else scope_get rest key

/-- Embedding of `_has_peer_certificate`: a truthy certificate entry under
`extensions.tls` or directly in the scope, over the three key names. -/
def _has_peer_certificate (scope : List (String × ScopeVal)) : Bool :=
  (match scope_get scope "extensions" with
   | .map ext =>
     match scope_get ext "tls" with
     | .map tls =>
       (scope_get tls "client_cert").truthy || (scope_get tls "peer_cert").truthy ||
         (scope_get tls "client_cert_chain").truthy
     | _ => false
   | _ => false) ||
  ((scope_get scope "client_cert").truthy || (scope_get scope "peer_cert").truthy ||
    (scope_get scope "client_cert_chain").truthy)

/-- Embedding of `is_asgi_tls_client_authorized`: requires a `Mapping` scope,
one of the three TLS flags `_as_bool`-truthy, and, when options require it,
a peer certificate. -/
def is_asgi_tls_client_authorized (request : Request)
    (options : Option AsgiMtlsMatcherOptions) : Bool :=
  match request.scope with
  | some (.map scope) =>
    if _as_bool (scope_get scope "tls_client_authorized") ||
        _as_bool (scope_get scope "client_cert_verified") ||
        _as_bool (scope_get scope "ssl_client_verify") then
      match options with
      | some opts =>
        if opts.require_peer_certificate then _has_peer_certificate scope else true
      | Option.none => true
    else false
  | _ => false

/-- Embedding of `create_asgi_tls_mtls_matcher`. -/
def create_asgi_tls_mtls_matcher (options : Option AsgiMtlsMatcherOptions) :
    Request → Bool :=
  fun request => is_asgi_tls_client_authorized request options

/-- The `token_ok` computation of `is_replication_admin_authorized`:
`False` unless `normalized.token` is truthy, else exact comparison with
`"Bearer " + token` of the looked-up authorization header. -/
def _token_check (headers : Option Headers) (token : Option String) : Bool :=
  match token with
  | some tok =>
    if tok ≠ "" then _get_header_value headers "authorization" == some ("Bearer " ++ tok)
    else false
  | Option.none => false

/-- The `mtls_ok` computation of `is_replication_admin_authorized`: the
injected matcher when present, otherwise header presence optionally refined
by the subject pattern.  The `RegexArg.str` branch is unreachable for
configs produced by `_normalize_config` (Python would have a compiled
pattern there; an un-normalized string would raise `AttributeError`). -/
def _mtls_check (request : Request) (normalized : ReplicationAdminAuthConfig) : Bool :=
  match normalized.mtls_matcher with
  | some matcher => matcher request
  | Option.none =>
    match _get_header_value request.headers normalized.mtls_header with
    | Option.none => false
    | some mtls_value =>
      match normalized.mtls_subject_regex with
      | Option.none => true
      | some (.pat p) => p.search mtls_value
      | some (.str _) => false

/-- The mode dispatch of `is_replication_admin_authorized` after
normalization (the trailing `return token_ok and mtls_ok` is the
`token_and_mtls` case). -/
def replication_admin_decision (request : Request)
    (normalized : ReplicationAdminAuthConfig) : Bool :=
  let token_ok := _token_check request.headers normalized.token
  let mtls_ok := _mtls_check request normalized
  if normalized.mode = "none" then true
  else if normalized.mode = "token" then token_ok
  else if normalized.mode = "mtls" then mtls_ok
  else if normalized.mode = "token_or_mtls" then token_ok || mtls_ok
  else token_ok && mtls_ok

/-- Embedding of `is_replication_admin_authorized`: normalize (which may
raise `ValueError`), then decide. -/
def is_replication_admin_authorized (compile : String → RePattern)
    (request : Request) (config : ReplicationAdminAuthConfig) :
    Except String Bool :=
  match _normalize_config compile config with
  | .error e => .error e
  | .ok normalized => .ok (replication_admin_decision request normalized)

/-- Error taxonomy of the wrapper: `ValueError` (configuration) versus
`PermissionError` (unauthorized). -/
inductive AuthError where
  | valueError (msg : String)
  | permissionError (msg : String)

/-- Embedding of `authorize_replication_admin_request`: normalize, evaluate,
and raise `PermissionError` when the decision is false. -/
def authorize_replication_admin_request (compile : String → RePattern)
    (request : Request) (config : ReplicationAdminAuthConfig) :
    Except AuthError Unit :=
  match _normalize_config compile config with
  | .error e => .error (.valueError e)
  | .ok normalized =>
    match is_replication_admin_authorized compile request normalized with
    | .error e => .error (.valueError e)
    | .ok true => .ok ()
    | .ok false =>
      .error (.permissionError ("Unauthorized: replication admin auth mode " ++
        normalized.mode ++ " not satisfied"))

/-- Embedding of `create_replication_admin_authorizer`: eager normalization,
then a closure over the normalized config. -/
def create_replication_admin_authorizer (compile : String → RePattern)
    (config : ReplicationAdminAuthConfig) :
    Except String (Request → Except AuthError Unit) :=
  match _normalize_config compile config with
  | .error e => .error e
  | .ok normalized =>
    .ok (fun request => authorize_replication_admin_request compile request normalized)

/-- A concrete regex compiler used by witnesses (never matches). -/
def compile0 : String → RePattern := fun _ => RePattern.mk (fun _ => false)

/-- A concrete compiled pattern used by witnesses, standing for the test
regex `^CN=replication-admin,`. -/
def patAdmin : RePattern :=
  RePattern.mk (fun v => v = "CN=replication-admin,O=RayDB")

/-- Right strip on character lists, used to reason about `pyStripL`. -/
def rstripL (p : α → Bool) (l : List α) : List α := (l.reverse.dropWhile p).reverse

/-- Concrete matcher used by witnesses, mirroring the custom-matcher test
hook (`lambda request: bool(request.scope.get("tls_client_authorized"))`). -/
def matchTLS : Request → Bool :=
  fun r => match r.scope with
  | some (.map s) => (scope_get s "tls_client_authorized").truthy
  | _ => false

/-- Witness config: token mode. -/
def cfgToken : ReplicationAdminAuthConfig := { mode := "token", token := some "abc123" }

/-- Witness config: token_or_mtls mode with a custom header. -/
def cfgOr : ReplicationAdminAuthConfig :=
  { mode := "token_or_mtls", token := some "abc123", mtls_header := "x-client-cert" }

/-- Witness config: token_and_mtls mode with a custom header. -/
def cfgAnd : ReplicationAdminAuthConfig :=
  { mode := "token_and_mtls", token := some "abc123", mtls_header := "x-client-cert" }

/-- Witness config: mtls mode with a subject pattern. -/
def cfgMtls : ReplicationAdminAuthConfig :=
  { mode := "mtls", mtls_header := "x-client-cert",
    mtls_subject_regex := some (.pat patAdmin) }

/-- Witness config: mtls mode with an injected matcher. -/
def cfgMatcher : ReplicationAdminAuthConfig :=
  { mode := "mtls", mtls_matcher := some matchTLS }

/-- Witness config: an unrecognized mode. -/
def cfgBad : ReplicationAdminAuthConfig := { mode := "bogus" }

/-- Witness request: no headers, no scope. -/
def reqEmpty : Request := {}

/-- Witness request: a correct bearer token header. -/
def reqTok : Request := { headers := some [("authorization", "Bearer abc123")] }

/-- Witness request: a client certificate header matching the pattern. -/
def reqCert : Request :=
  { headers := some [("x-client-cert", "CN=replication-admin,O=RayDB")] }

/-- Witness request: both the bearer token and the certificate header. -/
def reqBoth : Request :=
  { headers := some [("authorization", "Bearer abc123"),
                     ("x-client-cert", "CN=replication-admin,O=RayDB")] }

/-- Witness request: an authorized TLS scope. -/
def reqScopeOk : Request := { scope := some (.map [("tls_client_authorized", .bool true)]) }

/-- Normalized form of `cfgToken`. -/
def ncToken : ReplicationAdminAuthConfig := { mode := "token", token := some "abc123" }

/-- Normalized form of `cfgOr`. -/
def ncOr : ReplicationAdminAuthConfig :=
  { mode := "token_or_mtls", token := some "abc123", mtls_header := "x-client-cert" }

/-- Normalized form of `cfgAnd`. -/
def ncAnd : ReplicationAdminAuthConfig :=
  { mode := "token_and_mtls", token := some "abc123", mtls_header := "x-client-cert" }

/-- Normalized form of `cfgMtls`. -/
def ncMtls : ReplicationAdminAuthConfig :=
  { mode := "mtls", mtls_header := "x-client-cert",
    mtls_subject_regex := some (.pat patAdmin) }

/-- Normalized form of `cfgMatcher`. -/
def ncMatcher : ReplicationAdminAuthConfig :=
  { mode := "mtls", mtls_matcher := some matchTLS }

theorem charToNatOfNatValid (n : Nat) (h : n.isValidChar) : (Char.ofNat n).toNat = n := by
  unfold Char.ofNat
  rw [dif_pos h]
  rfl

theorem toLowerIdem (c : Char) : Char.toLower (Char.toLower c) = Char.toLower c := by
  unfold Char.toLower
  by_cases h : c.toNat ≥ 65 ∧ c.toNat ≤ 90
  · rw [if_pos h]
    have hv : (Char.ofNat (c.toNat + 32)).toNat = c.toNat + 32 :=
      charToNatOfNatValid _ (Or.inl (by omega))
    rw [if_neg (by omega)]
  · rw [if_neg h, if_neg h]

theorem isPySpace_le (c : Char) (h : isPySpace c = true) : c.toNat ≤ 32 := by
  simp only [isPySpace, Bool.or_eq_true, beq_iff_eq] at h
  rcases h with ((((h | h) | h) | h) | h) | h <;> subst h <;> decide

theorem isPySpace_toLower (c : Char) : isPySpace (Char.toLower c) = isPySpace c := by
  unfold Char.toLower
  by_cases h : c.toNat ≥ 65 ∧ c.toNat ≤ 90
  · rw [if_pos h]
    have hv : (Char.ofNat (c.toNat + 32)).toNat = c.toNat + 32 :=
      charToNatOfNatValid _ (Or.inl (by omega))
    have h1 : isPySpace (Char.ofNat (c.toNat + 32)) = false := by
      cases hx : isPySpace (Char.ofNat (c.toNat + 32)) with
      | false => rfl
      | true => have := isPySpace_le _ hx; omega
    have h2 : isPySpace c = false := by
      cases hx : isPySpace c with
      | false => rfl
      | true => have := isPySpace_le _ hx; omega
    rw [h1, h2]
  · rw [if_neg h]

theorem dropWhile_idem (p : α → Bool) (l : List α) :
    (l.dropWhile p).dropWhile p = l.dropWhile p := by
  cases hd : l.dropWhile p with
  | nil => rfl
  | cons a as =>
    have hp := List.head?_dropWhile_not p l
    rw [hd] at hp
    simp only [List.head?_cons] at hp
    rw [List.dropWhile_cons_of_neg]
    simp [hp]

theorem rstripL_idem (p : α → Bool) (l : List α) :
    rstripL p (rstripL p l) = rstripL p l := by
  unfold rstripL
  rw [List.reverse_reverse, dropWhile_idem]

theorem rstripL_append_eq (p : α → Bool) (l : List α) : ∃ t, l = rstripL p l ++ t := by
  obtain ⟨s, hs⟩ := (List.dropWhile_suffix (l := l.reverse) p)
  refine ⟨s.reverse, ?_⟩
  unfold rstripL
  calc l = l.reverse.reverse := (List.reverse_reverse l).symm
    _ = (s ++ l.reverse.dropWhile p).reverse := by rw [hs]
    _ = (l.reverse.dropWhile p).reverse ++ s.reverse := by rw [List.reverse_append]

theorem head?_rstripL (p : α → Bool) (l : List α) (a : α) (as : List α)
    (h : rstripL p l = a :: as) : l.head? = some a := by
  obtain ⟨t, ht⟩ := rstripL_append_eq p l
  rw [h] at ht
  rw [ht]
  rfl

theorem pyStripL_eq_rstrip (l : List Char) :
    pyStripL l = rstripL isPySpace (l.dropWhile isPySpace) := rfl

theorem pyStripL_idem (l : List Char) : pyStripL (pyStripL l) = pyStripL l := by
  rw [pyStripL_eq_rstrip, pyStripL_eq_rstrip]
  cases hr : rstripL isPySpace (l.dropWhile isPySpace) with
  | nil => simp [rstripL]
  | cons a as =>
    have hhead := head?_rstripL _ _ _ _ hr
    have hp := List.head?_dropWhile_not isPySpace l
    rw [hhead] at hp
    simp only at hp
    rw [List.dropWhile_cons_of_neg (by simp [hp])]
    rw [← hr, rstripL_idem]

theorem pyStrip_idem (s : String) : pyStrip (pyStrip s) = pyStrip s := by
  unfold pyStrip
  rw [show (String.mk (pyStripL s.data)).data = pyStripL s.data from rfl, pyStripL_idem]

theorem pyLower_idem (s : String) : pyLower (pyLower s) = pyLower s := by
  unfold pyLower
  rw [show (String.mk (s.data.map Char.toLower)).data = s.data.map Char.toLower from rfl]
  rw [List.map_map]
  congr 1
  apply List.map_congr_left
  intro c _
  exact toLowerIdem c

theorem dropWhile_map_toLower (l : List Char) :
    (l.map Char.toLower).dropWhile isPySpace = (l.dropWhile isPySpace).map Char.toLower := by
  rw [List.dropWhile_map]
  have hfn : (isPySpace ∘ Char.toLower) = isPySpace := by
    funext c
    exact isPySpace_toLower c
  rw [hfn]

theorem pyStripL_map_toLower (l : List Char) :
    pyStripL (l.map Char.toLower) = (pyStripL l).map Char.toLower := by
  unfold pyStripL
  rw [dropWhile_map_toLower, ← List.map_reverse, dropWhile_map_toLower, ← List.map_reverse]

theorem pyStrip_pyLower (s : String) : pyStrip (pyLower s) = pyLower (pyStrip s) := by
  unfold pyStrip pyLower
  rw [show (String.mk (s.data.map Char.toLower)).data = s.data.map Char.toLower from rfl]
  rw [pyStripL_map_toLower]

theorem normalize_ok_iff (compile : String → RePattern)
    (config nc : ReplicationAdminAuthConfig) :
    _normalize_config compile config = .ok nc ↔
      _norm_mode config ∈ _VALID_REPLICATION_ADMIN_AUTH_MODES ∧
      ¬(_norm_mode config ∈ _TOKEN_REQUIRED_MODES ∧ _norm_token config = Option.none) ∧
      nc = _normalized_record compile config := by
  unfold _normalize_config
  by_cases hv : _norm_mode config ∈ _VALID_REPLICATION_ADMIN_AUTH_MODES
  · rw [if_neg (not_not_intro hv)]
    by_cases ht : _norm_mode config ∈ _TOKEN_REQUIRED_MODES ∧ _norm_token config = Option.none
    · rw [if_pos ht]
      constructor
      · intro h
        exact Except.noConfusion h
      · rintro ⟨-, hn, -⟩
        exact absurd ht hn
    · rw [if_neg ht]
      constructor
      · intro h
        exact ⟨hv, ht, (Except.ok.inj h).symm⟩
      · rintro ⟨-, -, rfl⟩
        rfl
  · rw [if_pos hv]
    constructor
    · intro h
      exact Except.noConfusion h
    · rintro ⟨hmem, -, -⟩
      exact absurd hmem hv

theorem mode_renorm (m : String) (hm : m ∈ _VALID_REPLICATION_ADMIN_AUTH_MODES) :
    pyLower (pyStrip (if m = "" then "none" else m)) = m := by
  simp only [_VALID_REPLICATION_ADMIN_AUTH_MODES, List.mem_cons,
    List.not_mem_nil, or_false] at hm
  rcases hm with h | h | h | h | h <;> subst h <;> decide

theorem header_renorm (x : String) :
    pyLower (pyStrip (pyLower (pyStrip x))) = pyLower (pyStrip x) := by
  rw [pyStrip_pyLower, pyStrip_idem, pyLower_idem]

theorem norm_mode_record (compile : String → RePattern)
    (config : ReplicationAdminAuthConfig)
    (hmem : _norm_mode config ∈ _VALID_REPLICATION_ADMIN_AUTH_MODES) :
    _norm_mode (_normalized_record compile config) = _norm_mode config := by
  show pyLower (pyStrip (if _norm_mode config = "" then "none" else _norm_mode config)) =
    _norm_mode config
  exact mode_renorm _ hmem

theorem norm_token_record (compile : String → RePattern)
    (config : ReplicationAdminAuthConfig) :
    _norm_token (_normalized_record compile config) = _norm_token config := by
  show (if pyStrip ((_norm_token config).getD "") = "" then Option.none
    else some (pyStrip ((_norm_token config).getD ""))) = _norm_token config
  unfold _norm_token
  by_cases he : pyStrip (config.token.getD "") = ""
  · rw [if_pos he]
    rw [show ((Option.none : Option String).getD "") = "" from rfl]
    rw [if_pos (by decide)]
  · rw [if_neg he]
    rw [show ((some (pyStrip (config.token.getD ""))).getD "") =
      pyStrip (config.token.getD "") from rfl]
    rw [pyStrip_idem, if_neg he]

theorem norm_header_record (compile : String → RePattern)
    (config : ReplicationAdminAuthConfig) :
    _norm_mtls_header (_normalized_record compile config) = _norm_mtls_header config := by
  show (if pyLower (pyStrip (_norm_mtls_header config)) = "" then "x-forwarded-client-cert"
    else pyLower (pyStrip (_norm_mtls_header config))) = _norm_mtls_header config
  unfold _norm_mtls_header
  by_cases he : pyLower (pyStrip config.mtls_header) = ""
  · rw [if_pos he]
    rw [show pyLower (pyStrip "x-forwarded-client-cert") = "x-forwarded-client-cert" by decide]
    rw [if_neg (by decide)]
  · rw [if_neg he, header_renorm, if_neg he]

theorem norm_regex_record (compile : String → RePattern) (r : Option RegexArg) :
    _normalize_regex compile (_normalize_regex compile r) = _normalize_regex compile r := by
  cases r with
  | none => rfl
  | some arg => cases arg <;> rfl

theorem normalize_idem (compile : String → RePattern)
    (config nc : ReplicationAdminAuthConfig)
    (h : _normalize_config compile config = .ok nc) :
    _normalize_config compile nc = .ok nc := by
  rw [normalize_ok_iff] at h
  obtain ⟨hmem, hneg, rfl⟩ := h
  rw [normalize_ok_iff]
  refine ⟨?_, ?_, ?_⟩
  · rw [norm_mode_record compile config hmem]
    exact hmem
  · rw [norm_mode_record compile config hmem, norm_token_record compile config]
    exact hneg
  · show _normalized_record compile config =
      _normalized_record compile (_normalized_record compile config)
    have h1 := (norm_mode_record compile config hmem).symm
    have h2 := (norm_token_record compile config).symm
    have h3 := (norm_header_record compile config).symm
    have h4 := (norm_regex_record compile config.mtls_subject_regex).symm
    calc _normalized_record compile config
        = { mode := _norm_mode config, token := _norm_token config,
            mtls_header := _norm_mtls_header config,
            mtls_subject_regex := _normalize_regex compile config.mtls_subject_regex,
            mtls_matcher := config.mtls_matcher } := rfl
      _ = { mode := _norm_mode (_normalized_record compile config),
            token := _norm_token (_normalized_record compile config),
            mtls_header := _norm_mtls_header (_normalized_record compile config),
            mtls_subject_regex := _normalize_regex compile
              (_normalize_regex compile config.mtls_subject_regex),
            mtls_matcher := config.mtls_matcher } := by rw [← h1, ← h2, ← h3, ← h4]
      _ = _normalized_record compile (_normalized_record compile config) := rfl

theorem is_auth_ok (compile : String → RePattern) (request : Request)
    (config nc : ReplicationAdminAuthConfig)
    (h : _normalize_config compile config = .ok nc) :
    is_replication_admin_authorized compile request config =
      .ok (replication_admin_decision request nc) := by
  unfold is_replication_admin_authorized
  rw [h]

theorem decision_unfold (request : Request) (nc : ReplicationAdminAuthConfig) :
    replication_admin_decision request nc =
      (if nc.mode = "none" then true
       else if nc.mode = "token" then _token_check request.headers nc.token
       else if nc.mode = "mtls" then _mtls_check request nc
       else if nc.mode = "token_or_mtls" then
         _token_check request.headers nc.token || _mtls_check request nc
       else _token_check request.headers nc.token && _mtls_check request nc) := rfl

theorem decision_mode_token (request : Request) (nc : ReplicationAdminAuthConfig)
    (h : nc.mode = "token") :
    replication_admin_decision request nc = _token_check request.headers nc.token := by
  rw [decision_unfold, h]
  rw [if_neg (by decide), if_pos rfl]

theorem decision_mode_mtls (request : Request) (nc : ReplicationAdminAuthConfig)
    (h : nc.mode = "mtls") :
    replication_admin_decision request nc = _mtls_check request nc := by
  rw [decision_unfold, h]
  rw [if_neg (by decide), if_neg (by decide), if_pos rfl]

theorem decision_mode_or (request : Request) (nc : ReplicationAdminAuthConfig)
    (h : nc.mode = "token_or_mtls") :
    replication_admin_decision request nc =
      (_token_check request.headers nc.token || _mtls_check request nc) := by
  rw [decision_unfold, h]
  rw [if_neg (by decide), if_neg (by decide), if_neg (by decide), if_pos rfl]

theorem decision_mode_and (request : Request) (nc : ReplicationAdminAuthConfig)
    (h : nc.mode = "token_and_mtls") :
    replication_admin_decision request nc =
      (_token_check request.headers nc.token && _mtls_check request nc) := by
  rw [decision_unfold, h]
  rw [if_neg (by decide), if_neg (by decide), if_neg (by decide), if_neg (by decide)]

theorem norm_regex_shape (compile : String → RePattern) (r : Option RegexArg) :
    _normalize_regex compile r = Option.none ∨
      ∃ p, _normalize_regex compile r = some (.pat p) := by
  cases r with
  | none => exact Or.inl rfl
  | some arg => cases arg with
    | str s => exact Or.inr ⟨compile s, rfl⟩
    | pat p => exact Or.inr ⟨p, rfl⟩

/-- C1: under `token_or_mtls` the decision of `is_replication_admin_authorized`
is the boolean OR of the token check and the mtls check, and under
`token_and_mtls` it is their AND; in particular a request satisfying exactly
one check is rejected under `token_and_mtls` and accepted under
`token_or_mtls`. -/
theorem claim_C1 (compile : String → RePattern) (request : Request)
    (config nc : ReplicationAdminAuthConfig)
    (hn : _normalize_config compile config = .ok nc) :
    (nc.mode = "token_or_mtls" →
      is_replication_admin_authorized compile request config =
        .ok (_token_check request.headers nc.token || _mtls_check request nc) ∧
      ((_token_check request.headers nc.token = true ∨ _mtls_check request nc = true) →
        is_replication_admin_authorized compile request config = .ok true)) ∧
    (nc.mode = "token_and_mtls" →
      is_replication_admin_authorized compile request config =
        .ok (_token_check request.headers nc.token && _mtls_check request nc) ∧
      (_token_check request.headers nc.token ≠ _mtls_check request nc →
        is_replication_admin_authorized compile request config = .ok false)) := by
  have hok := is_auth_ok compile request config nc hn
  constructor
  · intro hm
    have hd := decision_mode_or request nc hm
    constructor
    · rw [hok, hd]
    · intro hone
      rw [hok, hd]
      rcases hone with h | h <;> simp [h]
  · intro hm
    have hd := decision_mode_and request nc hm
    constructor
    · rw [hok, hd]
    · intro hne
      rw [hok, hd]
      cases ht : _token_check request.headers nc.token <;>
        cases hmt : _mtls_check request nc <;> simp_all

/-- C1 witness: with token `abc123` and only the bearer header supplied,
`token_or_mtls` accepts and `token_and_mtls` rejects. -/
theorem claim_C1_witness :
    is_replication_admin_authorized compile0 reqTok cfgOr = .ok true ∧
    is_replication_admin_authorized compile0 reqTok cfgAnd = .ok false := by
  have h1 := claim_C1 compile0 reqTok cfgOr ncOr (by rfl)
  have h2 := claim_C1 compile0 reqTok cfgAnd ncAnd (by rfl)
  constructor
  · exact (h1.1 rfl).2 (Or.inl (by decide))
  · exact (h2.2 rfl).2 (by decide)

/-- C2: in token mode the gate accepts exactly when the (case-insensitively
looked-up, trimmed) authorization header equals `"Bearer "` followed by the
trimmed configured token; a missing or different header yields false. -/
theorem claim_C2 (compile : String → RePattern) (request : Request)
    (config nc : ReplicationAdminAuthConfig)
    (hn : _normalize_config compile config = .ok nc) (hmode : nc.mode = "token") :
    is_replication_admin_authorized compile request config =
      .ok (_get_header_value request.headers "authorization" ==
        some ("Bearer " ++ pyStrip (config.token.getD ""))) ∧
    (is_replication_admin_authorized compile request config = .ok true ↔
      _get_header_value request.headers "authorization" =
        some ("Bearer " ++ pyStrip (config.token.getD ""))) := by
  have hok := is_auth_ok compile request config nc hn
  obtain ⟨hmem, hneg, hrec⟩ := (normalize_ok_iff compile config nc).mp hn
  have hmodeN : _norm_mode config = "token" := by
    rw [hrec] at hmode
    exact hmode
  have htokne : _norm_token config ≠ Option.none := by
    intro hno
    exact hneg ⟨by rw [hmodeN]; decide, hno⟩
  have hstrip : pyStrip (config.token.getD "") ≠ "" := by
    intro he
    apply htokne
    unfold _norm_token
    rw [if_pos he]
  have htok : nc.token = some (pyStrip (config.token.getD "")) := by
    rw [hrec]
    show _norm_token config = _
    unfold _norm_token
    rw [if_neg hstrip]
  have hcheck : _token_check request.headers nc.token =
      (_get_header_value request.headers "authorization" ==
        some ("Bearer " ++ pyStrip (config.token.getD ""))) := by
    rw [htok]
    show (if pyStrip (config.token.getD "") ≠ "" then
      _get_header_value request.headers "authorization" ==
        some ("Bearer " ++ pyStrip (config.token.getD "")) else false) = _
    rw [if_pos hstrip]
  have h1 : is_replication_admin_authorized compile request config =
      .ok (_get_header_value request.headers "authorization" ==
        some ("Bearer " ++ pyStrip (config.token.getD ""))) := by
    rw [hok, decision_mode_token request nc hmode, hcheck]
  refine ⟨h1, ?_⟩
  rw [h1]
  constructor
  · intro h
    have hb := Except.ok.inj h
    exact eq_of_beq hb
  · intro h
    rw [h]
    simp

/-- C2 witness: the exact bearer header is accepted in token mode. -/
theorem claim_C2_witness :
    is_replication_admin_authorized compile0 reqTok cfgToken =
      .ok (_get_header_value reqTok.headers "authorization" ==
        some ("Bearer " ++ pyStrip (cfgToken.token.getD ""))) ∧
    is_replication_admin_authorized compile0 reqTok cfgToken = .ok true := by
  have h := claim_C2 compile0 reqTok cfgToken ncToken (by rfl) rfl
  exact ⟨h.1, h.2.mpr (by decide)⟩

theorem mtls_check_true_iff (request : Request) (nc : ReplicationAdminAuthConfig)
    (hmatch : nc.mtls_matcher = Option.none)
    (hshape : nc.mtls_subject_regex = Option.none ∨
      ∃ p, nc.mtls_subject_regex = some (.pat p)) :
    _mtls_check request nc = true ↔
      ∃ v, _get_header_value request.headers nc.mtls_header = some v ∧
        (nc.mtls_subject_regex = Option.none ∨
          ∃ p, nc.mtls_subject_regex = some (RegexArg.pat p) ∧ p.search v = true) := by
  have hmc : _mtls_check request nc =
      (match _get_header_value request.headers nc.mtls_header with
       | Option.none => false
       | some v =>
         match nc.mtls_subject_regex with
         | Option.none => true
         | some (.pat p) => p.search v
         | some (.str _) => false) := by
    unfold _mtls_check
    rw [hmatch]
  rw [hmc]
  rcases hshape with hr | ⟨p, hr⟩
  · rw [hr]
    cases hg : _get_header_value request.headers nc.mtls_header with
    | none =>
      constructor
      · intro h
        exact Bool.noConfusion h
      · rintro ⟨v, hv, -⟩
        exact Option.noConfusion hv
    | some v =>
      constructor
      · intro
        exact ⟨v, rfl, Or.inl rfl⟩
      · intro
        rfl
  · rw [hr]
    cases hg : _get_header_value request.headers nc.mtls_header with
    | none =>
      constructor
      · intro h
        exact Bool.noConfusion h
      · rintro ⟨v, hv, -⟩
        exact Option.noConfusion hv
    | some v =>
      constructor
      · intro h
        exact ⟨v, rfl, Or.inr ⟨p, rfl, h⟩⟩
      · rintro ⟨v2, hv2, hd⟩
        have hvv : v2 = v := (Option.some.inj hv2).symm
        subst hvv
        rcases hd with hnone | ⟨p2, hp2, hs⟩
        · exact Option.noConfusion hnone
        · have hpp : p2 = p := (RegexArg.pat.inj (Option.some.inj hp2)).symm
          subst hpp
          exact hs

/-- C3: in mtls mode without an injected matcher, the gate accepts exactly
when the configured mtls header is present with a non-empty trimmed value
and, when a subject pattern is configured, the pattern search accepts that
trimmed value; with no pattern, presence alone suffices. -/
theorem claim_C3 (compile : String → RePattern) (request : Request)
    (config nc : ReplicationAdminAuthConfig)
    (hn : _normalize_config compile config = .ok nc) (hmode : nc.mode = "mtls")
    (hmatch : nc.mtls_matcher = Option.none) :
    is_replication_admin_authorized compile request config =
      .ok (_mtls_check request nc) ∧
    (is_replication_admin_authorized compile request config = .ok true ↔
      ∃ v, _get_header_value request.headers nc.mtls_header = some v ∧
        (nc.mtls_subject_regex = Option.none ∨
          ∃ p, nc.mtls_subject_regex = some (RegexArg.pat p) ∧ p.search v = true)) := by
  have hok := is_auth_ok compile request config nc hn
  obtain ⟨hmem, hneg, hrec⟩ := (normalize_ok_iff compile config nc).mp hn
  have h1 : is_replication_admin_authorized compile request config =
      .ok (_mtls_check request nc) := by
    rw [hok, decision_mode_mtls request nc hmode]
  refine ⟨h1, ?_⟩
  rw [h1]
  have hshape : nc.mtls_subject_regex = Option.none ∨
      ∃ p, nc.mtls_subject_regex = some (.pat p) := by
    rw [hrec]
    exact norm_regex_shape compile config.mtls_subject_regex
  have hiff := mtls_check_true_iff request nc hmatch hshape
  constructor
  · intro h
    exact hiff.mp (Except.ok.inj h)
  · intro h
    rw [hiff.mpr h]

/-- C3 witness: a certificate header matching the subject pattern is
accepted in mtls mode. -/
theorem claim_C3_witness :
    is_replication_admin_authorized compile0 reqCert cfgMtls =
      .ok (_mtls_check reqCert ncMtls) ∧
    is_replication_admin_authorized compile0 reqCert cfgMtls = .ok true := by
  have h := claim_C3 compile0 reqCert cfgMtls ncMtls (by rfl) rfl rfl
  refine ⟨h.1, h.2.mpr ?_⟩
  exact ⟨"CN=replication-admin,O=RayDB", by decide,
    Or.inr ⟨patAdmin, rfl, by decide⟩⟩

theorem authorize_unfold_ok (compile : String → RePattern) (request : Request)
    (config nc : ReplicationAdminAuthConfig)
    (h : _normalize_config compile config = .ok nc) :
    authorize_replication_admin_request compile request config =
      (match is_replication_admin_authorized compile request nc with
       | .error e => .error (.valueError e)
       | .ok true => .ok ()
       | .ok false =>
         .error (.permissionError ("Unauthorized: replication admin auth mode " ++
           nc.mode ++ " not satisfied"))) := by
  unfold authorize_replication_admin_request
  rw [h]

theorem authorize_eval_true (compile : String → RePattern) (request : Request)
    (config nc : ReplicationAdminAuthConfig)
    (h : _normalize_config compile config = .ok nc)
    (hd : replication_admin_decision request nc = true) :
    authorize_replication_admin_request compile request config = .ok () := by
  rw [authorize_unfold_ok compile request config nc h,
    is_auth_ok compile request nc nc (normalize_idem compile config nc h), hd]

theorem authorize_eval_false (compile : String → RePattern) (request : Request)
    (config nc : ReplicationAdminAuthConfig)
    (h : _normalize_config compile config = .ok nc)
    (hd : replication_admin_decision request nc = false) :
    authorize_replication_admin_request compile request config =
      .error (.permissionError ("Unauthorized: replication admin auth mode " ++
        nc.mode ++ " not satisfied")) := by
  rw [authorize_unfold_ok compile request config nc h,
    is_auth_ok compile request nc nc (normalize_idem compile config nc h), hd]

theorem normalize_error_of_bad (compile : String → RePattern)
    (config : ReplicationAdminAuthConfig)
    (hbad : _norm_mode config ∉ _VALID_REPLICATION_ADMIN_AUTH_MODES ∨
      (_norm_mode config ∈ _TOKEN_REQUIRED_MODES ∧ _norm_token config = Option.none)) :
    ∃ e, _normalize_config compile config = .error e := by
  unfold _normalize_config
  rcases hbad with h | h
  · rw [if_pos h]
    exact ⟨_, rfl⟩
  · by_cases hv : _norm_mode config ∉ _VALID_REPLICATION_ADMIN_AUTH_MODES
    · rw [if_pos hv]
      exact ⟨_, rfl⟩
    · rw [if_neg hv, if_pos h]
      exact ⟨_, rfl⟩

/-- C4: configuration validation is eager — an unrecognized trimmed and
lowercased mode, or a token-requiring mode with an absent or
whitespace-only token, makes `create_replication_admin_authorizer` raise a
`ValueError` at construction; and a constructed authorizer never raises a
configuration error on any request (it only succeeds or raises
`PermissionError`). -/
theorem claim_C4 (compile : String → RePattern) (config : ReplicationAdminAuthConfig) :
    ((_norm_mode config ∉ _VALID_REPLICATION_ADMIN_AUTH_MODES ∨
      (_norm_mode config ∈ _TOKEN_REQUIRED_MODES ∧ _norm_token config = Option.none)) →
      ∃ e, create_replication_admin_authorizer compile config = .error e) ∧
    (∀ f, create_replication_admin_authorizer compile config = .ok f →
      ∀ request, f request = .ok () ∨
        ∃ m, f request = .error (AuthError.permissionError m)) := by
  constructor
  · intro hbad
    obtain ⟨e, he⟩ := normalize_error_of_bad compile config hbad
    refine ⟨e, ?_⟩
    unfold create_replication_admin_authorizer
    rw [he]
  · intro f hf request
    unfold create_replication_admin_authorizer at hf
    cases hn : _normalize_config compile config with
    | error e =>
      rw [hn] at hf
      exact Except.noConfusion hf
    | ok nc =>
      rw [hn] at hf
      have hfe := Except.ok.inj hf
      rw [← hfe]
      have hidem := normalize_idem compile config nc hn
      cases hd : replication_admin_decision request nc with
      | true =>
        exact Or.inl (authorize_eval_true compile request nc nc hidem hd)
      | false =>
        exact Or.inr ⟨_, authorize_eval_false compile request nc nc hidem hd⟩

/-- C4 witness: mode `bogus` is rejected at construction; the authorizer for
the token config never raises a configuration error on an empty request. -/
theorem claim_C4_witness :
    (∃ e, create_replication_admin_authorizer compile0 cfgBad = .error e) ∧
    ((fun request => authorize_replication_admin_request compile0 request ncToken) reqEmpty =
        .ok () ∨
      ∃ m, (fun request => authorize_replication_admin_request compile0 request ncToken)
        reqEmpty = .error (AuthError.permissionError m)) := by
  constructor
  · exact (claim_C4 compile0 cfgBad).1 (Or.inl (by decide))
  · exact (claim_C4 compile0 cfgToken).2
      (fun request => authorize_replication_admin_request compile0 request ncToken)
      (by rfl) reqEmpty

/-- C5: a supplied `mtls_matcher` callback fully determines the mtls check
(the check equals the matcher verdict), and the decision is then independent
of the configured mtls header, the subject pattern, and the request mtls
headers: two configs agreeing on mode, token and matcher, evaluated on two
requests agreeing on the authorization header lookup and on the matcher
verdict, produce identical results. -/
theorem claim_C5 (compile : String → RePattern) (r1 r2 : Request)
    (c1 c2 n1 n2 : ReplicationAdminAuthConfig) (m : Request → Bool)
    (h1 : _normalize_config compile c1 = .ok n1)
    (h2 : _normalize_config compile c2 = .ok n2)
    (hm1 : n1.mtls_matcher = some m) :
    _mtls_check r1 n1 = m r1 ∧
    (n2.mtls_matcher = some m → n1.mode = n2.mode → n1.token = n2.token →
      _get_header_value r1.headers "authorization" =
        _get_header_value r2.headers "authorization" →
      m r1 = m r2 →
      is_replication_admin_authorized compile r1 c1 =
        is_replication_admin_authorized compile r2 c2) := by
  have hchk1 : _mtls_check r1 n1 = m r1 := by
    unfold _mtls_check
    rw [hm1]
  refine ⟨hchk1, ?_⟩
  intro hm2 hmode htok hauth hmr
  have hchk2 : _mtls_check r2 n2 = m r2 := by
    unfold _mtls_check
    rw [hm2]
  have htc : _token_check r1.headers n1.token = _token_check r2.headers n2.token := by
    unfold _token_check
    rw [htok]
    cases n2.token with
    | none => rfl
    | some tok =>
      rw [hauth]
  rw [is_auth_ok compile r1 c1 n1 h1, is_auth_ok compile r2 c2 n2 h2]
  rw [decision_unfold, decision_unfold, hmode, htc, hchk1, hchk2, hmr]

/-- C5 witness: with an injected matcher, the mtls check equals the matcher
verdict, and adding an unrelated certificate header changes nothing. -/
theorem claim_C5_witness :
    _mtls_check reqScopeOk ncMatcher = matchTLS reqScopeOk ∧
    is_replication_admin_authorized compile0 reqScopeOk cfgMatcher =
      is_replication_admin_authorized compile0
        { headers := some [("x-client-cert", "CN=viewer,O=RayDB")],
          scope := some (.map [("tls_client_authorized", .bool true)]) } cfgMatcher := by
  have h := claim_C5 compile0 reqScopeOk
    { headers := some [("x-client-cert", "CN=viewer,O=RayDB")],
      scope := some (.map [("tls_client_authorized", .bool true)]) }
    cfgMatcher cfgMatcher ncMatcher ncMatcher matchTLS (by rfl) (by rfl) rfl
  exact ⟨h.1, h.2 rfl rfl rfl (by decide) (by decide)⟩

/-- C7: the wrapper `authorize_replication_admin_request` returns normally
exactly when the decision function returns true for the same request and
config, raises `PermissionError` exactly when the decision is false, and
never raises a configuration error for a valid config. -/
theorem claim_C7 (compile : String → RePattern) (request : Request)
    (config nc : ReplicationAdminAuthConfig)
    (hn : _normalize_config compile config = .ok nc) :
    (authorize_replication_admin_request compile request config = .ok () ↔
      is_replication_admin_authorized compile request config = .ok true) ∧
    ((∃ m, authorize_replication_admin_request compile request config =
        .error (.permissionError m)) ↔
      is_replication_admin_authorized compile request config = .ok false) ∧
    (∀ m, authorize_replication_admin_request compile request config ≠
      .error (.valueError m)) := by
  have hok := is_auth_ok compile request config nc hn
  cases hd : replication_admin_decision request nc with
  | true =>
    have ha := authorize_eval_true compile request config nc hn hd
    refine ⟨⟨fun _ => by rw [hok, hd], fun _ => ha⟩, ⟨?_, ?_⟩, ?_⟩
    · rintro ⟨m, hm⟩
      rw [ha] at hm
      exact Except.noConfusion hm
    · intro h
      rw [hok, hd] at h
      exact Bool.noConfusion (Except.ok.inj h)
    · intro m hcontra
      rw [ha] at hcontra
      exact Except.noConfusion hcontra
  | false =>
    have ha := authorize_eval_false compile request config nc hn hd
    refine ⟨⟨?_, ?_⟩, ⟨fun _ => by rw [hok, hd], fun _ => ⟨_, ha⟩⟩, ?_⟩
    · intro h
      rw [ha] at h
      exact Except.noConfusion h
    · intro h
      rw [hok, hd] at h
      exact Bool.noConfusion (Except.ok.inj h)
    · intro m hcontra
      rw [ha] at hcontra
      exact AuthError.noConfusion (Except.error.inj hcontra)

/-- C7 witness: the wrapper accepts the correct bearer request and raises
`PermissionError` on an empty request, matching the decision function. -/
theorem claim_C7_witness :
    authorize_replication_admin_request compile0 reqTok cfgToken = .ok () ∧
    (∃ m, authorize_replication_admin_request compile0 reqEmpty cfgToken =
      .error (.permissionError m)) := by
  have h1 := claim_C7 compile0 reqTok cfgToken ncToken (by rfl)
  have h2 := claim_C7 compile0 reqEmpty cfgToken ncToken (by rfl)
  exact ⟨h1.1.mpr (by rfl), h2.2.1.mpr (by rfl)⟩

/-- C8: the decision is a pure function of the request headers and the
config when no matcher is injected: two requests with equal headers under
the same config receive the same answer. -/
theorem claim_C8 (compile : String → RePattern) (r1 r2 : Request)
    (config : ReplicationAdminAuthConfig)
    (hm : config.mtls_matcher = Option.none) (hh : r1.headers = r2.headers) :
    is_replication_admin_authorized compile r1 config =
      is_replication_admin_authorized compile r2 config := by
  cases hc : _normalize_config compile config with
  | error e =>
    unfold is_replication_admin_authorized
    rw [hc]
  | ok nc =>
    have hmn : nc.mtls_matcher = Option.none := by
      obtain ⟨-, -, hrec⟩ := (normalize_ok_iff compile config nc).mp hc
      rw [hrec]
      exact hm
    have hmc : _mtls_check r1 nc = _mtls_check r2 nc := by
      unfold _mtls_check
      rw [hmn, hh]
    have htc : _token_check r1.headers nc.token = _token_check r2.headers nc.token := by
      rw [hh]
    rw [is_auth_ok compile r1 config nc hc, is_auth_ok compile r2 config nc hc]
    exact congrArg Except.ok (by rw [decision_unfold, decision_unfold, htc, hmc])

/-- C8 witness: a request differing only in its scope from the bearer
request receives the same decision. -/
theorem claim_C8_witness :
    is_replication_admin_authorized compile0 reqTok cfgToken =
      is_replication_admin_authorized compile0
        { headers := some [("authorization", "Bearer abc123")],
          scope := some (.map [("x", .bool true)]) } cfgToken :=
  claim_C8 compile0 reqTok
    { headers := some [("authorization", "Bearer abc123")],
      scope := some (.map [("x", .bool true)]) } cfgToken rfl rfl

/-- C9: the authorizer closure produced by
`create_replication_admin_authorizer` behaves identically to a direct call
of `authorize_replication_admin_request` with the original config — config
normalization is idempotent, so normalizing at construction and again per
call changes nothing. -/
theorem claim_C9 (compile : String → RePattern) (config : ReplicationAdminAuthConfig)
    (f : Request → Except AuthError Unit)
    (hc : create_replication_admin_authorizer compile config = .ok f)
    (request : Request) :
    f request = authorize_replication_admin_request compile request config := by
  unfold create_replication_admin_authorizer at hc
  cases hn : _normalize_config compile config with
  | error e =>
    rw [hn] at hc
    exact Except.noConfusion hc
  | ok nc =>
    rw [hn] at hc
    have hfe := Except.ok.inj hc
    rw [← hfe]
    show authorize_replication_admin_request compile request nc =
      authorize_replication_admin_request compile request config
    have hidem := normalize_idem compile config nc hn
    cases hd : replication_admin_decision request nc with
    | true =>
      rw [authorize_eval_true compile request nc nc hidem hd,
        authorize_eval_true compile request config nc hn hd]
    | false =>
      rw [authorize_eval_false compile request nc nc hidem hd,
        authorize_eval_false compile request config nc hn hd]

/-- C9 witness: the constructed authorizer closure and the direct call agree
on the bearer request. -/
theorem claim_C9_witness :
    (fun request => authorize_replication_admin_request compile0 request ncToken) reqTok =
      authorize_replication_admin_request compile0 reqTok cfgToken :=
  claim_C9 compile0 cfgToken
    (fun request => authorize_replication_admin_request compile0 request ncToken)
    (by rfl) reqTok

theorem header_scan_cons (k v : String) (rest : Headers) (name : String) :
    _header_scan ((k, v) :: rest) name =
      (if pyLower k ≠ name then _header_scan rest name
       else if pyStrip v ≠ "" then some (pyStrip v)
       else _header_scan rest name) := rfl

theorem header_scan_some (hs : Headers) (name t : String)
    (h : _header_scan hs name = some t) :
    ∃ p ∈ hs, pyLower p.1 = name ∧ pyStrip p.2 = t ∧ t ≠ "" := by
  induction hs with
  | nil => exact Option.noConfusion h
  | cons kv rest ih =>
    obtain ⟨k, v⟩ := kv
    rw [header_scan_cons] at h
    by_cases hk : pyLower k ≠ name
    · rw [if_pos hk] at h
      obtain ⟨p, hp, h1, h2, h3⟩ := ih h
      exact ⟨p, List.mem_cons_of_mem _ hp, h1, h2, h3⟩
    · push_neg at hk
      rw [if_neg (not_not_intro hk)] at h
      by_cases hv : pyStrip v ≠ ""
      · rw [if_pos hv] at h
        have ht : pyStrip v = t := Option.some.inj h
        exact ⟨(k, v), List.mem_cons_self _ _, hk, ht, ht ▸ hv⟩
      · rw [if_neg hv] at h
        obtain ⟨p, hp, h1, h2, h3⟩ := ih h
        exact ⟨p, List.mem_cons_of_mem _ hp, h1, h2, h3⟩

theorem header_scan_none_iff (hs : Headers) (name : String) :
    _header_scan hs name = Option.none ↔
      ∀ p ∈ hs, pyLower p.1 = name → pyStrip p.2 = "" := by
  induction hs with
  | nil =>
    constructor
    · intro _ p hp
      exact absurd hp (List.not_mem_nil p)
    · intro _
      rfl
  | cons kv rest ih =>
    obtain ⟨k, v⟩ := kv
    rw [header_scan_cons]
    by_cases hk : pyLower k ≠ name
    · rw [if_pos hk, ih]
      constructor
      · intro hall p hp hpl
        rcases List.mem_cons.mp hp with rfl | hp2
        · exact absurd hpl hk
        · exact hall p hp2 hpl
      · intro hall p hp hpl
        exact hall p (List.mem_cons_of_mem _ hp) hpl
    · push_neg at hk
      rw [if_neg (not_not_intro hk)]
      by_cases hv : pyStrip v ≠ ""
      · rw [if_pos hv]
        constructor
        · intro h
          exact Option.noConfusion h
        · intro hall
          exact absurd (hall (k, v) (List.mem_cons_self _ _) hk) hv
      · push_neg at hv
        rw [if_neg (not_not_intro hv), ih]
        constructor
        · intro hall p hp hpl
          rcases List.mem_cons.mp hp with rfl | hp2
          · exact hv
          · exact hall p hp2 hpl
        · intro hall p hp hpl
          exact hall p (List.mem_cons_of_mem _ hp) hpl

theorem dict_get_mem (hs : Headers) (name v : String)
    (h : dict_get hs name = some v) : (name, v) ∈ hs := by
  induction hs with
  | nil => exact Option.noConfusion h
  | cons kv rest ih =>
    obtain ⟨k, w⟩ := kv
    rw [show dict_get ((k, w) :: rest) name =
      (if k = name then some w else dict_get rest name) from rfl] at h
    by_cases hk : k = name
    · rw [if_pos hk] at h
      have hw : w = v := Option.some.inj h
      subst hw
      subst hk
      exact List.mem_cons_self _ _
    · rw [if_neg hk] at h
      exact List.mem_cons_of_mem _ (ih h)

theorem ghv_eval (hs : Headers) (name : String) (hlow : pyLower name = name) :
    _get_header_value (some hs) name =
      (match dict_get hs name with
       | some v => if pyStrip v ≠ "" then some (pyStrip v) else _header_scan hs name
       | Option.none => _header_scan hs name) := by
  show (match (match dict_get hs name with
              | some v => some v
              | Option.none => dict_get hs (pyLower name)) with
        | some v => if pyStrip v ≠ "" then some (pyStrip v) else _header_scan hs name
        | Option.none => _header_scan hs name) = _
  rw [hlow]
  cases dict_get hs name <;> rfl

/-- C6 counterexample: the claim quantifies over every header name, but for
the stored key `X-FOO` and the requested name `X-Foo` — which match
case-insensitively and carry the non-empty value `v` — `_get_header_value`
returns `None`: the exact lookup misses, the lowercased-name lookup misses,
and the scan compares lowercased keys against the *unchanged* requested
name. -/
theorem claim_C6_counterexample :
    _get_header_value (some [("X-FOO", "v")]) "X-Foo" = Option.none ∧
    pyLower "X-FOO" = pyLower "X-Foo" ∧ pyStrip "v" = "v" ∧ ("v" : String) ≠ "" := by
  refine ⟨by decide, by decide, by decide, by decide⟩

/-- C6 (amended): for a requested name that is already lowercase — as at
every call site — `_get_header_value` returns the trimmed value of an entry
whose key matches case-insensitively and whose value is non-empty after
trimming, and returns `None` exactly when no such entry exists; an entry
whose value trims to the empty string behaves like a missing header. -/
theorem claim_C6_amended (hs : Headers) (name : String) (hlow : pyLower name = name) :
    (∀ t, _get_header_value (some hs) name = some t →
      ∃ p ∈ hs, pyLower p.1 = name ∧ pyStrip p.2 = t ∧ t ≠ "") ∧
    (_get_header_value (some hs) name = Option.none ↔
      ∀ p ∈ hs, pyLower p.1 = name → pyStrip p.2 = "") := by
  rw [ghv_eval hs name hlow]
  cases hd : dict_get hs name with
  | none =>
    constructor
    · intro t ht
      exact header_scan_some hs name t ht
    · exact header_scan_none_iff hs name
  | some v =>
    have hmem : (name, v) ∈ hs := dict_get_mem hs name v hd
    by_cases hv : pyStrip v ≠ ""
    · constructor
      · intro t ht
        have ht2 : (if pyStrip v ≠ "" then some (pyStrip v)
            else _header_scan hs name) = some t := ht
        rw [if_pos hv] at ht2
        have hsv : pyStrip v = t := Option.some.inj ht2
        exact ⟨(name, v), hmem, hlow, hsv, hsv ▸ hv⟩
      · constructor
        · intro h
          have h2 : (if pyStrip v ≠ "" then some (pyStrip v)
              else _header_scan hs name) = Option.none := h
          rw [if_pos hv] at h2
          exact Option.noConfusion h2
        · intro hall
          exact absurd (hall (name, v) hmem hlow) hv
    · push_neg at hv
      have hred : (if pyStrip v ≠ "" then some (pyStrip v)
          else _header_scan hs name) = _header_scan hs name := by
        rw [if_neg (not_not_intro hv)]
      constructor
      · intro t ht
        have ht2 : (if pyStrip v ≠ "" then some (pyStrip v)
            else _header_scan hs name) = some t := ht
        rw [hred] at ht2
        exact header_scan_some hs name t ht2
      · constructor
        · intro h
          have h2 : (if pyStrip v ≠ "" then some (pyStrip v)
              else _header_scan hs name) = Option.none := h
          rw [hred] at h2
          exact (header_scan_none_iff hs name).mp h2
        · intro hall
          show (if pyStrip v ≠ "" then some (pyStrip v)
            else _header_scan hs name) = Option.none
          rw [hred]
          exact (header_scan_none_iff hs name).mpr hall

/-- C6 witness for the amended claim: a lowercase requested name finds the
differently-cased stored header and returns its trimmed value. -/
theorem claim_C6_amended_witness :
    pyLower "x-foo" = "x-foo" ∧
    (∃ p ∈ ([("X-FOO", " v ")] : Headers), pyLower p.1 = "x-foo" ∧
      pyStrip p.2 = "v" ∧ ("v" : String) ≠ "") ∧
    ¬(_get_header_value (some [("X-FOO", " v ")]) "x-foo" = Option.none) := by
  have h := claim_C6_amended [("X-FOO", " v ")] "x-foo" (by decide)
  refine ⟨by decide, h.1 "v" (by decide), ?_⟩
  intro hnone
  have := h.2.mp hnone ("X-FOO", " v ") (List.mem_cons_self _ _) (by decide)
  exact absurd this (by decide)

theorem as_bool_true_iff (v : ScopeVal) :
    _as_bool v = true ↔
      (v = .bool true ∨ (∃ n : Int, v = .int n ∧ n ≠ 0) ∨
        (∃ s, v = .str s ∧
          pyLower (pyStrip s) ∈ (["1", "true", "yes", "success"] : List String))) := by
  cases v with
  | null => simp [_as_bool]
  | bool b => cases b <;> simp [_as_bool]
  | int n => simp [_as_bool, bne_iff_ne]
  | str s =>
    simp only [_as_bool, Bool.or_eq_true, beq_iff_eq, List.mem_cons, List.not_mem_nil,
      or_false, ScopeVal.str.injEq]
    constructor
    · rintro (((h | h) | h) | h)
      · exact Or.inr (Or.inr ⟨s, rfl, Or.inl h⟩)
      · exact Or.inr (Or.inr ⟨s, rfl, Or.inr (Or.inl h)⟩)
      · exact Or.inr (Or.inr ⟨s, rfl, Or.inr (Or.inr (Or.inl h))⟩)
      · exact Or.inr (Or.inr ⟨s, rfl, Or.inr (Or.inr (Or.inr h))⟩)
    · rintro (h | ⟨n, h, -⟩ | ⟨s2, hs2, hm⟩)
      · exact absurd h (by simp)
      · exact absurd h (by simp)
      · subst hs2
        rcases hm with h | h | h | h
        · exact Or.inl (Or.inl (Or.inl h))
        · exact Or.inl (Or.inl (Or.inr h))
        · exact Or.inl (Or.inr h)
        · exact Or.inr h
  | list l => simp [_as_bool]
  | map m => simp [_as_bool]

theorem bor_true {a b : Bool} : (a || b) = true ↔ a = true ∨ b = true := by
  cases a <;> cases b <;> simp

theorem bor3_true {x y z : Bool} :
    (x || y || z) = true ↔ (x = true ∨ y = true ∨ z = true) := by
  cases x <;> cases y <;> cases z <;> simp

theorem peer_false_side (scope : List (String × ScopeVal)) (w : ScopeVal)
    (hw : ∀ m, w ≠ ScopeVal.map m) :
    ((false ||
      ((scope_get scope "client_cert").truthy || (scope_get scope "peer_cert").truthy ||
        (scope_get scope "client_cert_chain").truthy)) = true) ↔
      (((scope_get scope "client_cert").truthy = true ∨
        (scope_get scope "peer_cert").truthy = true ∨
        (scope_get scope "client_cert_chain").truthy = true) ∨
       (∃ ext tls, w = ScopeVal.map ext ∧ scope_get ext "tls" = ScopeVal.map tls ∧
         ((scope_get tls "client_cert").truthy = true ∨
          (scope_get tls "peer_cert").truthy = true ∨
          (scope_get tls "client_cert_chain").truthy = true))) := by
  constructor
  · intro h
    exact Or.inl (bor3_true.mp ((bor_true.mp h).resolve_left (by simp)))
  · rintro (hd | ⟨ext2, tls2, hw2, -, -⟩)
    · exact bor_true.mpr (Or.inr (bor3_true.mpr hd))
    · exact absurd hw2 (hw ext2)

theorem peer_inner_false_side (scope ext : List (String × ScopeVal))
    (hfalse : ∀ tls2, scope_get ext "tls" ≠ ScopeVal.map tls2) :
    ((false ||
      ((scope_get scope "client_cert").truthy || (scope_get scope "peer_cert").truthy ||
        (scope_get scope "client_cert_chain").truthy)) = true) ↔
      (((scope_get scope "client_cert").truthy = true ∨
        (scope_get scope "peer_cert").truthy = true ∨
        (scope_get scope "client_cert_chain").truthy = true) ∨
       (∃ ext2 tls2, ScopeVal.map ext = ScopeVal.map ext2 ∧
         scope_get ext2 "tls" = ScopeVal.map tls2 ∧
         ((scope_get tls2 "client_cert").truthy = true ∨
          (scope_get tls2 "peer_cert").truthy = true ∨
          (scope_get tls2 "client_cert_chain").truthy = true))) := by
  constructor
  · intro h
    exact Or.inl (bor3_true.mp ((bor_true.mp h).resolve_left (by simp)))
  · rintro (hd | ⟨ext2, tls2, he2, ht2, -⟩)
    · exact bor_true.mpr (Or.inr (bor3_true.mpr hd))
    · have hee : ext = ext2 := ScopeVal.map.inj he2
      subst hee
      exact absurd ht2 (hfalse tls2)

theorem has_peer_map_ext (scope ext : List (String × ScopeVal))
    (he : scope_get scope "extensions" = .map ext) :
    _has_peer_certificate scope =
      ((match scope_get ext "tls" with
        | ScopeVal.map tls =>
          (scope_get tls "client_cert").truthy || (scope_get tls "peer_cert").truthy ||
            (scope_get tls "client_cert_chain").truthy
        | _ => false) ||
       ((scope_get scope "client_cert").truthy || (scope_get scope "peer_cert").truthy ||
        (scope_get scope "client_cert_chain").truthy)) := by
  unfold _has_peer_certificate
  rw [he]

theorem has_peer_not_map (scope : List (String × ScopeVal)) (w : ScopeVal)
    (he : scope_get scope "extensions" = w) (hw : ∀ m, w ≠ ScopeVal.map m) :
    _has_peer_certificate scope =
      (false ||
       ((scope_get scope "client_cert").truthy || (scope_get scope "peer_cert").truthy ||
        (scope_get scope "client_cert_chain").truthy)) := by
  unfold _has_peer_certificate
  rw [he]
  cases w
  case map m => exact absurd rfl (hw m)
  all_goals rfl

theorem has_peer_true_iff (scope : List (String × ScopeVal)) :
    _has_peer_certificate scope = true ↔
      (((scope_get scope "client_cert").truthy = true ∨
        (scope_get scope "peer_cert").truthy = true ∨
        (scope_get scope "client_cert_chain").truthy = true) ∨
       (∃ ext tls, scope_get scope "extensions" = .map ext ∧
         scope_get ext "tls" = .map tls ∧
         ((scope_get tls "client_cert").truthy = true ∨
          (scope_get tls "peer_cert").truthy = true ∨
          (scope_get tls "client_cert_chain").truthy = true))) := by
  cases he : scope_get scope "extensions"
  case map ext =>
    rw [has_peer_map_ext scope ext he]
    cases ht : scope_get ext "tls"
    case map tls =>
      constructor
      · intro h
        rcases bor_true.mp h with hx | hd
        · exact Or.inr ⟨ext, tls, rfl, ht, bor3_true.mp hx⟩
        · exact Or.inl (bor3_true.mp hd)
      · rintro (hd | ⟨ext2, tls2, he2, ht2, hin⟩)
        · exact bor_true.mpr (Or.inr (bor3_true.mpr hd))
        · have hee : ext = ext2 := ScopeVal.map.inj he2
          subst hee
          have htt : tls = tls2 := ScopeVal.map.inj (ht.symm.trans ht2)
          subst htt
          exact bor_true.mpr (Or.inl (bor3_true.mpr hin))
    case null =>
      exact peer_inner_false_side scope ext
        (fun t h => ScopeVal.noConfusion (ht.symm.trans h))
    case bool b =>
      exact peer_inner_false_side scope ext
        (fun t h => ScopeVal.noConfusion (ht.symm.trans h))
    case int n =>
      exact peer_inner_false_side scope ext
        (fun t h => ScopeVal.noConfusion (ht.symm.trans h))
    case str s =>
      exact peer_inner_false_side scope ext
        (fun t h => ScopeVal.noConfusion (ht.symm.trans h))
    case list l =>
      exact peer_inner_false_side scope ext
        (fun t h => ScopeVal.noConfusion (ht.symm.trans h))
  case null =>
    rw [has_peer_not_map scope _ he (fun m h => ScopeVal.noConfusion h)]
    exact peer_false_side scope _ (fun m h => ScopeVal.noConfusion h)
  case bool b =>
    rw [has_peer_not_map scope _ he (fun m h => ScopeVal.noConfusion h)]
    exact peer_false_side scope _ (fun m h => ScopeVal.noConfusion h)
  case int n =>
    rw [has_peer_not_map scope _ he (fun m h => ScopeVal.noConfusion h)]
    exact peer_false_side scope _ (fun m h => ScopeVal.noConfusion h)
  case str s =>
    rw [has_peer_not_map scope _ he (fun m h => ScopeVal.noConfusion h)]
    exact peer_false_side scope _ (fun m h => ScopeVal.noConfusion h)
  case list l =>
    rw [has_peer_not_map scope _ he (fun m h => ScopeVal.noConfusion h)]
    exact peer_false_side scope _ (fun m h => ScopeVal.noConfusion h)

theorem flags_bridge (a b c : ScopeVal) :
    (_as_bool a || _as_bool b || _as_bool c) = true ↔
      ∃ v, (v = a ∨ v = b ∨ v = c) ∧
        (v = .bool true ∨ (∃ n : Int, v = .int n ∧ n ≠ 0) ∨
          (∃ s, v = .str s ∧
            pyLower (pyStrip s) ∈ (["1", "true", "yes", "success"] : List String))) := by
  rw [bor3_true]
  constructor
  · rintro (h | h | h)
    · exact ⟨a, Or.inl rfl, (as_bool_true_iff a).mp h⟩
    · exact ⟨b, Or.inr (Or.inl rfl), (as_bool_true_iff b).mp h⟩
    · exact ⟨c, Or.inr (Or.inr rfl), (as_bool_true_iff c).mp h⟩
  · rintro ⟨v, (rfl | rfl | rfl), hv⟩
    · exact Or.inl ((as_bool_true_iff _).mpr hv)
    · exact Or.inr (Or.inl ((as_bool_true_iff _).mpr hv))
    · exact Or.inr (Or.inr ((as_bool_true_iff _).mpr hv))

theorem asgi_eval_map (request : Request) (scope : List (String × ScopeVal))
    (options : Option AsgiMtlsMatcherOptions)
    (hs : request.scope = some (.map scope)) :
    is_asgi_tls_client_authorized request options =
      (if _as_bool (scope_get scope "tls_client_authorized") ||
          _as_bool (scope_get scope "client_cert_verified") ||
          _as_bool (scope_get scope "ssl_client_verify") then
        match options with
        | some opts =>
          if opts.require_peer_certificate then _has_peer_certificate scope else true
        | Option.none => true
      else false) := by
  unfold is_asgi_tls_client_authorized
  rw [hs]

theorem asgi_eval_not_map (request : Request) (options : Option AsgiMtlsMatcherOptions)
    (w : Option ScopeVal) (hs : request.scope = w)
    (hw : ∀ m, w ≠ some (ScopeVal.map m)) :
    is_asgi_tls_client_authorized request options = false := by
  unfold is_asgi_tls_client_authorized
  rw [hs]
  cases w
  case none => rfl
  case some sv =>
    cases sv
    case map m => exact absurd rfl (hw m)
    all_goals rfl

/-- C10: `is_asgi_tls_client_authorized` accepts exactly when the request
scope is a mapping, one of the three TLS flags holds a truthy value (a
boolean true, a nonzero number, or a string whose trimmed lowercase form is
`1`, `true`, `yes` or `success`), and, when options require a peer
certificate, a truthy certificate entry exists directly in the scope or
under `extensions.tls`; a non-mapping scope is never authorized. -/
theorem claim_C10 (request : Request) (options : Option AsgiMtlsMatcherOptions) :
    is_asgi_tls_client_authorized request options = true ↔
      ∃ scope, request.scope = some (.map scope) ∧
        (∃ v, (v = scope_get scope "tls_client_authorized" ∨
               v = scope_get scope "client_cert_verified" ∨
               v = scope_get scope "ssl_client_verify") ∧
          (v = .bool true ∨ (∃ n : Int, v = .int n ∧ n ≠ 0) ∨
            (∃ s, v = .str s ∧
              pyLower (pyStrip s) ∈ (["1", "true", "yes", "success"] : List String)))) ∧
        (∀ opts, options = some opts → opts.require_peer_certificate = true →
          (((scope_get scope "client_cert").truthy = true ∨
            (scope_get scope "peer_cert").truthy = true ∨
            (scope_get scope "client_cert_chain").truthy = true) ∨
           (∃ ext tls, scope_get scope "extensions" = .map ext ∧
             scope_get ext "tls" = .map tls ∧
             ((scope_get tls "client_cert").truthy = true ∨
              (scope_get tls "peer_cert").truthy = true ∨
              (scope_get tls "client_cert_chain").truthy = true)))) := by
  by_cases hmap : ∃ scope, request.scope = some (ScopeVal.map scope)
  · obtain ⟨scope, hs⟩ := hmap
    rw [asgi_eval_map request scope options hs]
    constructor
    · intro h
      by_cases hflag : (_as_bool (scope_get scope "tls_client_authorized") ||
          _as_bool (scope_get scope "client_cert_verified") ||
          _as_bool (scope_get scope "ssl_client_verify")) = true
      · refine ⟨scope, hs, (flags_bridge _ _ _).mp hflag, ?_⟩
        intro opts hopts hreq
        rw [if_pos hflag] at h
        subst hopts
        have h2 : (if opts.require_peer_certificate then _has_peer_certificate scope
            else true) = true := h
        rw [if_pos hreq] at h2
        exact (has_peer_true_iff scope).mp h2
      · rw [if_neg hflag] at h
        exact Bool.noConfusion h
    · rintro ⟨scope2, hs2, hfl, hpeer⟩
      have hsc : scope = scope2 :=
        ScopeVal.map.inj (Option.some.inj (hs.symm.trans hs2))
      subst hsc
      have hflag := (flags_bridge (scope_get scope "tls_client_authorized")
        (scope_get scope "client_cert_verified")
        (scope_get scope "ssl_client_verify")).mpr hfl
      rw [if_pos hflag]
      cases options with
      | none => rfl
      | some opts =>
        show (if opts.require_peer_certificate then _has_peer_certificate scope
          else true) = true
        cases hr : opts.require_peer_certificate with
        | false => rfl
        | true =>
          show _has_peer_certificate scope = true
          exact (has_peer_true_iff scope).mpr (hpeer opts rfl hr)
  · have hfalse : is_asgi_tls_client_authorized request options = false := by
      apply asgi_eval_not_map request options request.scope rfl
      intro m hcontra
      exact hmap ⟨m, hcontra⟩
    rw [hfalse]
    constructor
    · intro h
      exact Bool.noConfusion h
    · rintro ⟨scope, hsc, -, -⟩
      exact (hmap ⟨scope, hsc⟩).elim

end KiteDB
